import Mathlib

/-
Shallow embedding of scripts/2-analyze-target-pixel-files.py
(K2 target-pixel-file metadata harvester).

Conventions of the embedding:
* Python strings are Lean String; the position-based core String functions do
  not reduce in the kernel, so small character-list re-implementations of
  str.strip, str.lower, str.replace and os.path.basename are used; each one
  states the Python function it mirrors.
* FITS header values (astropy returns ints/floats/strings/Undefined) are
  modelled by HVal: either the undefined marker or the str() image of the
  value, since every value is immediately re-serialized with str() by the
  script.
* Filesystem state is a list of the paths that exist; the network is a
  function from URL to the response behaviour.  Exceptions are modelled with
  Except / Option.
-/

namespace K2Meta

/-- Python str.lower applied to the ASCII keyword names used by the script. -/
def strLower (s : String) : String := String.mk (s.data.map Char.toLower)

/-- Whitespace set of Python str.strip (space, tab, newline, CR, VT, FF). -/
def isPyWsp (c : Char) : Bool :=
  c == ' ' || c == '\t' || c == '\n' || c == '\r' || c == '\x0b' || c == '\x0c'

/-- Python str.strip: drop leading and trailing whitespace. -/
def strTrim (s : String) : String :=
  String.mk (((s.data.dropWhile isPyWsp).reverse.dropWhile isPyWsp).reverse)

/-- Replace every non-overlapping occurrence of pat, scanning left to right;
fuel-based structural recursion so the kernel can evaluate it.  With fuel
initialised to the length of the text it agrees with Python str.replace for
a non-empty pattern (each step consumes at least one character). -/
def replaceFuel (pat rep : List Char) : Nat → List Char → List Char
  | _, [] => []
  | 0, s => s
  | fuel+1, c :: cs =>
    if pat.isPrefixOf (c :: cs) && !pat.isEmpty then
      rep ++ replaceFuel pat rep fuel ((c :: cs).drop pat.length)
    else c :: replaceFuel pat rep fuel cs

/-- Python str.replace for the non-empty patterns the script uses. -/
def strReplace (s pat rep : String) : String :=
  String.mk (replaceFuel pat.data rep.data s.data.length s.data)

/-- Python os.path.basename: everything after the last slash. -/
def basename (s : String) : String :=
  String.mk (s.data.foldl (fun acc c => if c = '/' then [] else acc ++ [c]) [])

/-- Python "spd-targ" in url (substring test), used by the short-cadence
filter.  Executable via splitting on the pattern. -/
def hasSpdTarg (url : String) : Bool := (url.splitOn "spd-targ").length > 1

/-! Configuration constants (script lines 24-29). -/

/-- Local directory containing a mirror of MAST TPF files. -/
def DATA_STORE : String := "/media/gb/kdata/k2/target_pixel_files"

/-- Location to download temporary files from MAST if needed. -/
def TMPDIR : String := "/data/tmp/"

/-- How many times do we try to obtain and open a file? -/
def MAX_ATTEMPTS : Nat := 50

/-- Seconds slept between attempts of fits.open. -/
def SLEEP_BETWEEN_ATTEMPTS : Nat := 30

/-- Short-cadence filter toggle; the script leaves it False. -/
def IGNORE_SHORT_CADENCE : Bool := false

/-- The remote URL root that get_metadata_row substitutes with DATA_STORE. -/
def mastUrlRoot : String := "http://archive.stsci.edu/missions/k2/target_pixel_files"

/-- FITS header value as seen by the script: astropy's Undefined marker, or
the str() image of the stored value. -/
inductive HVal
  | undef
  | val (s : String)
deriving DecidableEq, Repr

/-- One FITS header block: an association list keyword to value, mirroring
astropy's header mapping (first binding wins). -/
def lookupKw (h : List (String × HVal)) (kw : String) : Option HVal :=
  (h.find? (fun p => p.1 == kw)).map Prod.snd

/-- Content of a successfully opened target pixel file: the three header
blocks the script reads (primary, extension 1, extension 2), the pixel-mask
data of extension 2 (none models astropy returning no data block), and the
on-disk size in bytes. -/
structure TpfData where
  ext0 : List (String × HVal)
  ext1 : List (String × HVal)
  ext2 : List (String × HVal)
  ext2data : Option (List Int)
  sizeBytes : Nat
deriving Repr

/-- The str() image of a header value; astropy's Undefined prints as the
empty string. -/
def hvalStr : HVal → String
  | .undef => ""
  | .val s => s

namespace TargetPixelFile

/-- TargetPixelFile.header for a given extension's header block: returns the
value, or the empty string when the keyword is missing (KeyError) or its
value is fits.Undefined (script lines 64-75). -/
def header (h : List (String × HVal)) (kw : String) : String :=
  match lookupKw h kw with
  | none => ""
  | some .undef => ""
  | some (.val s) => s

/-- The "{:.1f}".format(size / 1048576.) string of the filesize row.  The
last decimal digit is produced by truncation here where Python rounds; no
claim depends on the digit, only on the field being present. -/
def filesizeStr (bytes : Nat) : String :=
  toString (bytes * 10 / 1048576 / 10) ++ "." ++ toString (bytes * 10 / 1048576 % 10)

/-- Keywords read from the primary header (script lines 84-86). -/
def kwsExt0 : List String :=
  ["OBJECT", "KEPLERID", "OBSMODE", "CAMPAIGN", "DATA_REL",
   "CHANNEL", "MODULE", "OUTPUT", "RA_OBJ", "DEC_OBJ", "KEPMAG"]

/-- Keywords read from extension 1's header (script lines 89-90). -/
def kwsExt1 : List String :=
  ["LC_START", "LC_END", "GAIN", "READNOIS", "MEANBLCK",
   "CDPP3_0", "CDPP6_0", "CDPP12_0"]

/-- Keywords read from extension 2's header (script lines 93-95). -/
def kwsExt2 : List String :=
  ["NAXIS1", "NAXIS2", "CRPIX1", "CRPIX2", "CRVAL1", "CRVAL2",
   "CDELT1", "CDELT2", "PC1_1", "PC1_2", "PC2_1", "PC2_2",
   "CRVAL1P", "CRVAL2P"]

/-- TargetPixelFile.get_metadata (script lines 77-97).  The record is the
ordered association list of field name to string value.  Two accesses bypass
the forgiving header accessor and can raise: the cadences field reads
fits[1].header["NAXIS2"] directly (KeyError when absent), and the npix field
evaluates (fits[2].data > 0).sum() (TypeError when the data block is None).
Either exception aborts the whole extraction, modelled as Except.error. -/
def get_metadata (d : TpfData) (url : String) : Except String (List (String × String)) :=
  match lookupKw d.ext1 "NAXIS2" with
  | none => .error "KeyError: NAXIS2"
  | some cad =>
    match d.ext2data with
    | none => .error "TypeError: NoneType comparison"
    | some px =>
      .ok ([("filename", basename url), ("url", url),
            ("filesize", filesizeStr d.sizeBytes)]
        ++ kwsExt0.map (fun kw => (kw, header d.ext0 kw))
        ++ [("cadences", hvalStr cad)]
        ++ kwsExt1.map (fun kw => (kw, header d.ext1 kw))
        ++ [("npix", toString (px.countP (fun v => decide (0 < v))))]
        ++ kwsExt2.map (fun kw => (kw, header d.ext2 kw)))

/-- The fixed ordered field-name list of the metadata record. -/
def metaKeys : List String :=
  ["filename", "url", "filesize"] ++ kwsExt0 ++ ["cadences"] ++ kwsExt1
    ++ ["npix"] ++ kwsExt2

/-- TargetPixelFile.get_csv_header (script lines 99-102): the lower-cased
field names of the record, comma-joined.  Calling get_metadata may raise,
hence the Except. -/
def get_csv_header (d : TpfData) (url : String) : Except String String :=
  (get_metadata d url).map
    (fun r => String.intercalate "," (r.map (fun p => strLower p.1)))

/-- TargetPixelFile.get_csv_row (script lines 104-108): the str() images of
the record values, comma-joined, in record order. -/
def get_csv_row (d : TpfData) (url : String) : Except String String :=
  (get_metadata d url).map
    (fun r => String.intercalate "," (r.map Prod.snd))

end TargetPixelFile

/-- The retry loop of TargetPixelFile.__init__ (script lines 49-62),
parametrised by the outcome of fits.open at each attempt number.  The first
argument of the recursion is the number of attempts still allowed after the
current one; the second is the current attempt number.  Returns the final
outcome together with the number of sleeps (of SLEEP_BETWEEN_ATTEMPTS
seconds each) performed: on success attempt is set to 99 and the loop exits
with no further sleep; on failure at the last allowed attempt the error is
re-raised; on any earlier failure the loop sleeps once and retries. -/
def retryFrom {α : Type} (f : Nat → Except String α) : Nat → Nat → Except String α × Nat
  | 0, att => (f att, 0)
  | r+1, att =>
    match f att with
    | .ok d => (.ok d, 0)
    | .error _ =>
      let p := retryFrom f r (att + 1)
      (p.1, p.2 + 1)

/-- TargetPixelFile.__init__: attempts start at 1 and at most MAX_ATTEMPTS
are made. -/
def tpfInitRetry {α : Type} (f : Nat → Except String α) : Except String α × Nat :=
  retryFrom f (MAX_ATTEMPTS - 1) 1

/-- Behaviour of the network for one URL, as observed by download_file:
urlopen plus the chunked response.read loop. -/
inductive NetOutcome
  | ok
  | connectFail (e : String)
  | readFail

/-- The filesystem is the list of existing paths.  Creating a path (Python
open(p, "wb")) adds it if absent; os.unlink removes it. -/
def fsAdd (fs : List String) (p : String) : List String :=
  if p ∈ fs then fs else p :: fs

/-- Deleting a path from the filesystem. -/
def fsRemove (fs : List String) (p : String) : List String :=
  fs.filter (fun q => q ≠ p)

/-- download_file (script lines 111-119): a single urlopen call (there is no
retry loop in this function), then open(local_filename, "wb") — which creates
the local file — and the chunk-copy loop.  Returns the outcome, the
filesystem afterwards, and the number of urlopen calls performed (literally
one: the function body contains exactly one urlopen).  When urlopen raises,
no local file was created; when a chunk read raises, the partially written
local file remains. -/
def download_file (net : String → NetOutcome) (url localFilename : String)
    (fs : List String) : Except String Unit × List String × Nat :=
  match net url with
  | .connectFail e => (.error e, fs, 1)
  | .readFail => (.error "read failed", fsAdd fs localFilename, 1)
  | .ok => (.ok (), fsAdd fs localFilename, 1)

/-- World model for one worker invocation: the initial filesystem, the
network behaviour per URL, the outcome of fits.open per path and attempt
number, and whether os.unlink fails per path. -/
structure Env where
  fs : List String
  net : String → NetOutcome
  fitsOpen : String → Nat → Except String TpfData
  unlinkFails : String → Bool

/-- Constructing a TargetPixelFile on a path: the retry loop applied to
fits.open on that path. -/
def tpfConstruct (env : Env) (path : String) : Except String TpfData × Nat :=
  tpfInitRetry (env.fitsOpen path)

/-- The candidate local-mirror path: pure string substitution of the MAST
URL root with DATA_STORE (script line 139); no network access. -/
def localMirrorPath (url : String) : String := strReplace url mastUrlRoot DATA_STORE

/-- The scratch path chosen for a download: os.path.join(TMPDIR,
os.path.basename(url)) (script line 144).  TMPDIR ends in a slash and a
basename contains no slash, so the join is plain concatenation. -/
def scratchPath (url : String) : String := TMPDIR ++ basename url

/-- One line written to the CSV output. -/
inductive CsvLine
  | headerLine (s : String)
  | dataLine (s : String)
deriving DecidableEq, Repr

/-- Whether a line is a data line. -/
def isData : CsvLine → Bool
  | .dataLine _ => true
  | .headerLine _ => false

/-- Whether a line is the CSV header line. -/
def isHeaderL : CsvLine → Bool
  | .headerLine _ => true
  | .dataLine _ => false

/-- Number of data rows among a list of output lines. -/
def countData (ls : List CsvLine) : Nat := ls.countP isData

/-- The string actually written for a list of lines: each line terminated
with a newline, as in the script's output += ... + a newline. -/
def renderLines (ls : List CsvLine) : String :=
  String.join (ls.map (fun l =>
    match l with
    | .headerLine s => s ++ "\n"
    | .dataLine s => s ++ "\n"))

/-- The lines accumulated in the try block of get_metadata_row once a path
was acquired (script lines 148-152): construct the TargetPixelFile, then
append the header line (when requested) and the data row.  Any exception is
caught by the enclosing handler and leaves the output empty.  get_csv_header
and get_csv_row both evaluate the same pure get_metadata, so they fail or
succeed together; the impossible mixed cases map to the caught-exception
output. -/
def extractLines (t : Except String TpfData) (url : String) (hdr : Bool) : List CsvLine :=
  match t with
  | .error _ => []
  | .ok d =>
    match TargetPixelFile.get_csv_header d url, TargetPixelFile.get_csv_row d url with
    | .ok h, .ok r => (if hdr then [CsvLine.headerLine h] else []) ++ [CsvLine.dataLine r]
    | _, _ => []

/-- Result of the acquisition phase of get_metadata_row (script lines
138-146): the acquired path or the propagated download error, the filesystem
afterwards, the number of urlopen calls made, and the tmp_download flag
(set only after download_file returned successfully). -/
structure AcqState where
  res : Except String String
  fs : List String
  fetchCalls : Nat
  tmp_download : Bool

/-- Acquisition phase of get_metadata_row: mirror lookup, then download on
miss. -/
def acquire (env : Env) (url : String) : AcqState :=
  let lp := localMirrorPath url
  if lp ∈ env.fs then
    { res := .ok lp, fs := env.fs, fetchCalls := 0, tmp_download := false }
  else
    let sp := scratchPath url
    match download_file env.net url sp env.fs with
    | (.error e, fs1, n) =>
      { res := .error e, fs := fs1, fetchCalls := n, tmp_download := false }
    | (.ok _, fs1, n) =>
      { res := .ok sp, fs := fs1, fetchCalls := n, tmp_download := true }

/-- Observable result of one get_metadata_row call: the returned value
(none models Python's None for skipped short-cadence files; some ls models
the returned string, rendered from the structured lines), the filesystem
after the call, the number of urlopen calls, the tmp_download flag at exit,
whether the cleanup-failure log line was emitted, and the path passed to
TargetPixelFile when acquisition succeeded. -/
structure RowTrace where
  out : Option (List CsvLine)
  fsAfter : List String
  fetchCalls : Nat
  tmp_download : Bool
  cleanupFailLogged : Bool
  acquiredPath : Option String

/-- get_metadata_row (script lines 122-163): strip the URL, optionally skip
short-cadence files, acquire a local path (mirror hit or download), build
the CSV lines, and in the finally block delete the scratch file exactly when
tmp_download was set, logging but swallowing a deletion failure. -/
def get_metadata_row (env : Env) (url0 : String) (hdr : Bool) : RowTrace :=
  let url := strTrim url0
  if IGNORE_SHORT_CADENCE && hasSpdTarg url then
    { out := none, fsAfter := env.fs, fetchCalls := 0, tmp_download := false,
      cleanupFailLogged := false, acquiredPath := none }
  else
    let a := acquire env url
    match a.res with
    | .error _ =>
      { out := some [], fsAfter := a.fs, fetchCalls := a.fetchCalls,
        tmp_download := a.tmp_download, cleanupFailLogged := false,
        acquiredPath := none }
    | .ok path =>
      let lines := extractLines (tpfConstruct env path).1 url hdr
      if a.tmp_download then
        if env.unlinkFails path then
          { out := some lines, fsAfter := a.fs, fetchCalls := a.fetchCalls,
            tmp_download := true, cleanupFailLogged := true,
            acquiredPath := some path }
        else
          { out := some lines, fsAfter := fsRemove a.fs path,
            fetchCalls := a.fetchCalls, tmp_download := true,
            cleanupFailLogged := false, acquiredPath := some path }
      else
        { out := some lines, fsAfter := a.fs, fetchCalls := a.fetchCalls,
          tmp_download := false, cleanupFailLogged := false,
          acquiredPath := some path }

/-- The lines contributed to the output file by one URL. -/
def rowLines (env : Env) (u : String) (hdr : Bool) : List CsvLine :=
  (get_metadata_row env u hdr).out.getD []

/-- Whether a URL's processing produced a data row (acquired, opened and
extracted successfully). -/
def rowSucceeds (env : Env) (u : String) : Bool :=
  !(rowLines env u false).isEmpty

/-- Concatenated contributions of the URLs handed to the pool, in completion
order, each processed without the header flag (script lines 186-192).  Each
worker runs in its own pool process against the initial filesystem and
touches only its own scratch path. -/
def concatRows (env : Env) : List String → List CsvLine
  | [] => []
  | u :: us => rowLines env u false ++ concatRows env us

/-- write_metadata_table's output-file content as structured lines (script
lines 166-192): the first URL is processed synchronously with header=True
and its result written unconditionally; the remaining URLs are dispatched to
the pool and drained in completion order, given here by the order argument
(any permutation of the tail).  An empty URL list raises IndexError on
urls[0] after the output file was already opened with mode w and truncated,
leaving it empty. -/
def write_metadata_table (env : Env) (urls : List String) (order : List String) : List CsvLine :=
  match urls with
  | [] => []
  | u0 :: _ => rowLines env u0 true ++ concatRows env order

/-- One I/O event performed by write_metadata_table itself (the aggregation
step; the workers' scratch-file traffic is accounted in RowTrace). -/
inductive AggEvent
  | openWrite (p : String)
  | openAppend (p : String)
  | openRead (p : String)
  | readLines (p : String)
  | writeChunk (p : String) (s : String)
  | flushOut (p : String)
deriving DecidableEq, Repr

/-- Events that modify a file. -/
def isWriteEvent : AggEvent → Bool
  | .openWrite _ => true
  | .openAppend _ => true
  | .writeChunk _ _ => true
  | .flushOut _ => true
  | _ => false

/-- Events that read a file. -/
def isReadEvent : AggEvent → Bool
  | .openRead _ => true
  | .readLines _ => true
  | _ => false

/-- The path an event touches. -/
def eventPath : AggEvent → String
  | .openWrite p => p
  | .openAppend p => p
  | .openRead p => p
  | .readLines p => p
  | .writeChunk p _ => p
  | .flushOut p => p

/-- The pool-drain phase of write_metadata_table as events: each non-None
result is written to the output file and the stream flushed. -/
def aggRest (env : Env) (output_fn : String) : List String → List AggEvent
  | [] => []
  | u :: us =>
    (match (get_metadata_row env u false).out with
     | none => []
     | some ls => [AggEvent.writeChunk output_fn (renderLines ls),
                   AggEvent.flushOut output_fn])
    ++ aggRest env output_fn us

/-- write_metadata_table as its own I/O event trace (script lines 179-192):
open(output_fn, "w") — truncating — happens first, then open(input_fn, "r")
and readlines; inputContent is none when the input file is missing, in which
case the IOError propagates with only those events performed.  The first
URL's result is written without a flush; the drained results follow. -/
def aggTrace (env : Env) (input_fn output_fn : String)
    (inputContent : Option (List String)) (order : List String) : List AggEvent :=
  AggEvent.openWrite output_fn ::
    (match inputContent with
     | none => [AggEvent.openRead input_fn]
     | some urls =>
       AggEvent.openRead input_fn :: AggEvent.readLines input_fn ::
         (match urls with
          | [] => []
          | u0 :: _ =>
            AggEvent.writeChunk output_fn (renderLines (rowLines env u0 true)) ::
              aggRest env output_fn order))

/-- Zero-padded two-digit campaign number, as "{:02d}".format(campaign). -/
def pad2 (n : Nat) : String := if n < 10 then "0" ++ toString n else toString n

/-- Input URL-list path for a campaign (script line 207). -/
def inputFn (c : Nat) : String :=
  "intermediate-data/k2-c" ++ pad2 c ++ "-tpf-urls.txt"

/-- Output CSV path for a campaign (script line 208). -/
def outputFn (c : Nat) : String :=
  "intermediate-data/k2-c" ++ pad2 c ++ "-tpf-metadata.csv"

/-- Campaign list selected by the CLI argument (script lines 200-203):
"all" expands to range(0, 6); otherwise int(argument) as a singleton. -/
def campaignsFor (arg : String) : Option (List Nat) :=
  if arg == "all" then some (List.range 6) else arg.toNat?.map (fun n => [n])

/-- The __main__ campaign loop (script lines 205-209).  readFile gives the
content of a path, none when the file is missing or unreadable.
write_metadata_table opens the campaign's input file inside the loop body;
the resulting IOError is caught nowhere, so it propagates out of the for
loop and terminates the invocation.  Returns the campaigns whose runs
completed and the campaign (if any) whose missing input aborted the run. -/
def mainLoop (readFile : String → Option (List String)) : List Nat → List Nat × Option Nat
  | [] => ([], none)
  | c :: cs =>
    match readFile (inputFn c) with
    | none => ([], some c)
    | some _ =>
      let p := mainLoop readFile cs
      (c :: p.1, p.2)

/-! General helper lemmas shared by the claim theorems. -/

/-- Whether an Except value is a success. -/
def isOkE {ε α : Type} : Except ε α → Bool
  | .ok _ => true
  | .error _ => false

lemma string_append_left_cancel {a b c : String} (h : a ++ b = a ++ c) : b = c := by
  apply String.ext
  have hd : a.data ++ b.data = a.data ++ c.data := by
    have := congrArg String.data h
    simpa [String.data_append] using this
  exact List.append_cancel_left hd

lemma fsRemove_not_mem (fs : List String) (p : String) : p ∉ fsRemove fs p := by
  simp [fsRemove]

lemma retryFrom_all_fail {α : Type} (f : Nat → Except String α) :
    ∀ (r att : Nat), (∀ j, j < r → isOkE (f (att + j)) = false) →
      retryFrom f r att = (f (att + r), r) := by
  intro r
  induction r with
  | zero => intro att _; simp [retryFrom]
  | succ n ih =>
    intro att hfail
    have h0 : isOkE (f att) = false := by simpa using hfail 0 (Nat.succ_pos n)
    unfold retryFrom
    cases hf : f att with
    | ok d => rw [hf] at h0; simp [isOkE] at h0
    | error e =>
      have hrec := ih (att + 1) (fun j hj => by
        have := hfail (j + 1) (Nat.succ_lt_succ hj)
        simpa [Nat.add_assoc, Nat.add_comm 1 j] using this)
      rw [hrec]
      have : att + 1 + n = att + (n + 1) := by omega
      rw [this]

lemma retryFrom_first_success {α : Type} (f : Nat → Except String α) (d : α) :
    ∀ (i r att : Nat), i ≤ r → (∀ j, j < i → isOkE (f (att + j)) = false) →
      f (att + i) = .ok d → retryFrom f r att = (.ok d, i) := by
  intro i
  induction i with
  | zero =>
    intro r att _ _ hok
    rw [Nat.add_zero] at hok
    cases r with
    | zero => simp [retryFrom, hok]
    | succ n => simp [retryFrom, hok]
  | succ n ih =>
    intro r att hle hfail hok
    cases r with
    | zero => omega
    | succ m =>
      have h0 : isOkE (f att) = false := by simpa using hfail 0 (Nat.succ_pos n)
      unfold retryFrom
      cases hf : f att with
      | ok e => rw [hf] at h0; simp [isOkE] at h0
      | error e =>
        have hrec := ih m (att + 1) (by omega)
          (fun j hj => by
            have := hfail (j + 1) (Nat.succ_lt_succ hj)
            simpa [Nat.add_assoc, Nat.add_comm 1 j] using this)
          (by
            have : att + 1 + n = att + (n + 1) := by omega
            rw [this]; exact hok)
        rw [hrec]

/-! Claim C7: behaviour of the campaign loop when an input file is missing. -/

/-- Concrete world for the C7 counterexample: campaign 0's URL list is
missing, every other campaign's list is readable. -/
def readFilesC7 : String → Option (List String) :=
  fun p => if p == inputFn 0 then none else some ["http://a/x.fits"]

/-- C7 counterexample: invoked over campaigns 0..5 ("all"), with only
campaign 0's URL-list file missing, the invocation terminates at campaign 0
and processes none of the remaining campaigns 1..5 — refuting the claim that
a ConfigurationError is fatal for that campaign's run only. -/
theorem c7_counterexample :
    campaignsFor "all" = some (List.range 6)
    ∧ mainLoop readFilesC7 (List.range 6) = ([], some 0)
    ∧ (1 : Nat) ∉ (mainLoop readFilesC7 (List.range 6)).1 := by
  refine ⟨by decide, by decide, by decide⟩

/-- C7 (amended): a missing or unreadable input URL-list file terminates the
whole invocation.  The campaigns processed are exactly those before the
first campaign whose input file is missing, and the run aborts at that first
missing campaign (none when all inputs are readable). -/
theorem c7_abort_at_first_missing (readFile : String → Option (List String)) :
    ∀ cs : List Nat,
      (mainLoop readFile cs).1 = cs.takeWhile (fun c => (readFile (inputFn c)).isSome)
      ∧ (mainLoop readFile cs).2 = cs.find? (fun c => (readFile (inputFn c)).isNone) := by
  intro cs
  induction cs with
  | nil => simp [mainLoop]
  | cons c cs ih =>
    cases hr : readFile (inputFn c) with
    | none => simp [mainLoop, hr, List.takeWhile_cons, List.find?]
    | some v =>
      simp only [mainLoop, hr, List.takeWhile_cons, List.find?]
      simp [ih.1, ih.2]

/-! Claim C8: scratch-path uniqueness. -/

/-- C8 counterexample: two distinct URLs with equal basenames are mapped to
the same scratch path, so their downloads collide on one file. -/
theorem c8_counterexample :
    ("http://archive.stsci.edu/a/ktwo200000001-c00_lpd-targ.fits.gz" : String)
      ≠ "http://archive.stsci.edu/b/ktwo200000001-c00_lpd-targ.fits.gz"
    ∧ scratchPath "http://archive.stsci.edu/a/ktwo200000001-c00_lpd-targ.fits.gz"
      = scratchPath "http://archive.stsci.edu/b/ktwo200000001-c00_lpd-targ.fits.gz" := by
  refine ⟨by decide, by decide⟩

/-- C8 (amended): the scratch path is TMPDIR joined with the URL's basename
and carries no uniqueness suffix, so the scratch paths of two URLs coincide
exactly when their basenames coincide; distinct URLs whose basenames are
equal do collide. -/
theorem c8_collision_iff_same_basename (u1 u2 : String) :
    scratchPath u1 = scratchPath u2 ↔ basename u1 = basename u2 := by
  constructor
  · intro h; exact string_append_left_cancel h
  · intro h; simp [scratchPath, h]

/-! Claim C2: retry policy. -/

/-- Concrete world for the C2 counterexample: no mirror, the remote connect
fails. -/
def envC2 : Env :=
  { fs := [], net := fun _ => .connectFail "connection reset",
    fitsOpen := fun _ _ => .error "open failed", unlinkFails := fun _ => false }

/-- URL used by the C2 counterexample. -/
def urlC2 : String := "http://a/x.fits"

/-- C2 counterexample: with the mapped local-mirror path absent and the
remote fetch failing, the worker performs exactly one urlopen call and drops
the URL (empty output), although MAX_ATTEMPTS is 50 — refuting the claim
that the remote fetch is attempted up to MAX_ATTEMPTS times with backoff
retries.  The retry loop of the script surrounds fits.open, not the
download. -/
theorem c2_counterexample :
    (get_metadata_row envC2 urlC2 false).fetchCalls = 1
    ∧ (get_metadata_row envC2 urlC2 false).out = some []
    ∧ MAX_ATTEMPTS = 50 := by
  refine ⟨by decide, by decide, by decide⟩

/-- C2 (amended): download_file performs exactly one urlopen per call (no
retry); the MAX_ATTEMPTS/backoff policy lives in TargetPixelFile.__init__
around fits.open on the acquired local path: opening is attempted up to
MAX_ATTEMPTS (50) times; a success at attempt k is returned after k - 1
sleeps of SLEEP_BETWEEN_ATTEMPTS (30) seconds each (one sleep after every
failed attempt except the last); if all MAX_ATTEMPTS attempts fail, the
final attempt's error is propagated after MAX_ATTEMPTS - 1 sleeps. -/
theorem c2_retry_on_open :
    MAX_ATTEMPTS = 50 ∧ SLEEP_BETWEEN_ATTEMPTS = 30
    ∧ (∀ (net : String → NetOutcome) (url p : String) (fs : List String),
        (download_file net url p fs).2.2 = 1)
    ∧ (∀ (α : Type) (f : Nat → Except String α) (d : α) (k : Nat),
        1 ≤ k → k ≤ MAX_ATTEMPTS →
        (∀ j, 1 ≤ j → j < k → isOkE (f j) = false) →
        f k = .ok d → tpfInitRetry f = (.ok d, k - 1))
    ∧ (∀ (α : Type) (f : Nat → Except String α),
        (∀ j, 1 ≤ j → j ≤ MAX_ATTEMPTS → isOkE (f j) = false) →
        tpfInitRetry f = (f MAX_ATTEMPTS, MAX_ATTEMPTS - 1)) := by
  refine ⟨rfl, rfl, ?_, ?_, ?_⟩
  · intro net url p fs
    unfold download_file
    cases net url <;> rfl
  · intro α f d k hk1 hk50 hfail hok
    unfold tpfInitRetry
    have h := retryFrom_first_success f d (k - 1) (MAX_ATTEMPTS - 1) 1
      (by simp [MAX_ATTEMPTS] at hk50 ⊢; omega)
      (fun j hj => hfail (1 + j) (by omega) (by omega))
      (by have : 1 + (k - 1) = k := by omega
          rw [this]; exact hok)
    exact h
  · intro α f hfail
    unfold tpfInitRetry
    have h := retryFrom_all_fail f (MAX_ATTEMPTS - 1) 1
      (fun j hj => hfail (1 + j) (by omega) (by simp [MAX_ATTEMPTS] at hj ⊢; omega))
    rw [h]
    have : 1 + (MAX_ATTEMPTS - 1) = MAX_ATTEMPTS := by simp [MAX_ATTEMPTS]
    rw [this]

/-- C2 witness: the amended retry facts evaluated at a concrete attempt
function that fails on attempt 1 and succeeds on attempt 2: the constructor
returns the attempt-2 value after exactly one sleep. -/
theorem c2_retry_on_open_witness :
    tpfInitRetry (fun j => if j ≥ 2 then Except.ok 7 else Except.error "io") = (.ok 7, 1) :=
  c2_retry_on_open.2.2.2.1 Nat (fun j => if j ≥ 2 then Except.ok 7 else Except.error "io") 7 2
    (by decide) (by decide) (fun j h1 h2 => by interval_cases j; rfl) (by rfl)

/-! Claims C3 and C5: the extraction record and the CSV field order. -/

/-- Value of a successful Except, with a default for the error case. -/
def exceptGet {ε α : Type} (d : α) : Except ε α → α
  | .ok a => a
  | .error _ => d

/-- The exact header line demanded by the spec. -/
def csvHeaderStr : String :=
  "filename,url,filesize,object,keplerid,obsmode,campaign,data_rel,channel,module,output,ra_obj,dec_obj,kepmag,cadences,lc_start,lc_end,gain,readnois,meanblck,cdpp3_0,cdpp6_0,cdpp12_0,npix,naxis1,naxis2,crpix1,crpix2,crval1,crval2,cdelt1,cdelt2,pc1_1,pc1_2,pc2_1,pc2_2,crval1p,crval2p"

lemma get_metadata_keys (d : TpfData) (url : String) (r : List (String × String))
    (h : TargetPixelFile.get_metadata d url = .ok r) :
    r.map Prod.fst = TargetPixelFile.metaKeys := by
  unfold TargetPixelFile.get_metadata at h
  cases hc : lookupKw d.ext1 "NAXIS2" with
  | none => rw [hc] at h; simp at h
  | some cad =>
    rw [hc] at h
    cases hp : d.ext2data with
    | none => rw [hp] at h; simp at h
    | some px =>
      rw [hp] at h
      simp only [Except.ok.injEq] at h
      subst h
      simp [TargetPixelFile.metaKeys, List.map_append, List.map_map, Function.comp_def]

lemma metaKeys_length : TargetPixelFile.metaKeys.length = 38 := by decide

set_option maxRecDepth 8192 in
lemma metaKeys_lower :
    String.intercalate "," (TargetPixelFile.metaKeys.map strLower) = csvHeaderStr := by
  decide

/-- A target pixel file whose extension-1 header lacks NAXIS2. -/
def tpfNoNaxis2 : TpfData :=
  { ext0 := [("OBJECT", HVal.val "EPIC 1")], ext1 := [("LC_START", HVal.val "1")],
    ext2 := [], ext2data := some [1], sizeBytes := 100 }

/-- A target pixel file whose extension 2 has no data block. -/
def tpfNoData : TpfData :=
  { ext0 := [], ext1 := [("NAXIS2", HVal.val "42")], ext2 := [],
    ext2data := none, sizeBytes := 100 }

/-- A target pixel file on which extraction succeeds. -/
def tpfGood : TpfData :=
  { ext0 := [("OBJECT", HVal.val "EPIC 1")], ext1 := [("NAXIS2", HVal.val "42")],
    ext2 := [], ext2data := some [1, 0, 2], sizeBytes := 1048576 }

/-- C3 counterexample: on a file whose extension-1 header lacks the NAXIS2
keyword, get_metadata does not return a record with an empty cadences field;
it aborts the whole extraction (the direct fits[1].header["NAXIS2"] access
raises KeyError) — refuting the claim that a single absent keyword degrades
to an empty string for that field only, for every field including the
cadences row count. -/
theorem c3_counterexample :
    lookupKw tpfNoNaxis2.ext1 "NAXIS2" = none
    ∧ isOkE (TargetPixelFile.get_metadata tpfNoNaxis2 "http://a/x.fits") = false := by
  refine ⟨by decide, by decide⟩

/-- C3 (amended): every field read through the forgiving header accessor
degrades to the empty string when its keyword is absent or undefined, and a
successful extraction always carries the full fixed 38-field record; but the
cadences and npix fields are exceptions: a missing NAXIS2 keyword in
extension 1, or an absent data block in extension 2, aborts the whole
extraction instead of degrading to an empty string. -/
theorem c3_per_keyword_degrade :
    (∀ (h : List (String × HVal)) (kw : String),
        lookupKw h kw = none → TargetPixelFile.header h kw = "")
    ∧ (∀ (h : List (String × HVal)) (kw : String),
        lookupKw h kw = some HVal.undef → TargetPixelFile.header h kw = "")
    ∧ (∀ (d : TpfData) (url : String) (r : List (String × String)),
        TargetPixelFile.get_metadata d url = .ok r →
          r.map Prod.fst = TargetPixelFile.metaKeys ∧ r.length = 38)
    ∧ (∀ (d : TpfData) (url : String), lookupKw d.ext1 "NAXIS2" = none →
        isOkE (TargetPixelFile.get_metadata d url) = false)
    ∧ (∀ (d : TpfData) (url : String), d.ext2data = none →
        isOkE (TargetPixelFile.get_metadata d url) = false) := by
  refine ⟨?_, ?_, ?_, ?_, ?_⟩
  · intro h kw hl
    unfold TargetPixelFile.header
    rw [hl]
  · intro h kw hl
    unfold TargetPixelFile.header
    rw [hl]
  · intro d url r h
    refine ⟨get_metadata_keys d url r h, ?_⟩
    have h2 := congrArg List.length (get_metadata_keys d url r h)
    rw [List.length_map] at h2
    rw [h2]
    exact metaKeys_length
  · intro d url hl
    unfold TargetPixelFile.get_metadata
    rw [hl]
    rfl
  · intro d url hp
    unfold TargetPixelFile.get_metadata
    cases hc : lookupKw d.ext1 "NAXIS2" with
    | none => rfl
    | some cad =>
      rw [hp]
      rfl

/-- C3 witness: the amended statement applied at concrete files: a missing
keyword and an undefined keyword both give the empty string; a successful
extraction carries exactly the fixed key list; a file without NAXIS2 in
extension 1 and a file without an extension-2 data block both abort. -/
theorem c3_per_keyword_degrade_witness :
    TargetPixelFile.header ([] : List (String × HVal)) "KEPMAG" = ""
    ∧ TargetPixelFile.header [("KEPMAG", HVal.undef)] "KEPMAG" = ""
    ∧ (exceptGet [] (TargetPixelFile.get_metadata tpfGood "u1")).map Prod.fst
        = TargetPixelFile.metaKeys
    ∧ isOkE (TargetPixelFile.get_metadata tpfNoNaxis2 "u") = false
    ∧ isOkE (TargetPixelFile.get_metadata tpfNoData "u") = false :=
  ⟨c3_per_keyword_degrade.1 [] "KEPMAG" rfl,
   c3_per_keyword_degrade.2.1 [("KEPMAG", HVal.undef)] "KEPMAG" rfl,
   (c3_per_keyword_degrade.2.2.1 tpfGood "u1"
      (exceptGet [] (TargetPixelFile.get_metadata tpfGood "u1")) rfl).1,
   c3_per_keyword_degrade.2.2.2.1 tpfNoNaxis2 "u" rfl,
   c3_per_keyword_degrade.2.2.2.2 tpfNoData "u" rfl⟩

/-- C5: for every file on which extraction succeeds, the CSV header line is
exactly the fixed comma-joined lower-cased field-name list — the same string
for every file, run and campaign — and the data line is the comma-join of
the record's values in the same fixed order. -/
theorem c5_csv_header_fixed (d : TpfData) (url : String) (r : List (String × String))
    (h : TargetPixelFile.get_metadata d url = .ok r) :
    TargetPixelFile.get_csv_header d url = .ok csvHeaderStr
    ∧ TargetPixelFile.get_csv_row d url
        = .ok (String.intercalate "," (r.map Prod.snd)) := by
  constructor
  · unfold TargetPixelFile.get_csv_header
    rw [h]
    have hmap : r.map (fun p => strLower p.1) = (r.map Prod.fst).map strLower := by
      simp [List.map_map, Function.comp]
    have hk : (r.map Prod.fst).map strLower = TargetPixelFile.metaKeys.map strLower := by
      rw [get_metadata_keys d url r h]
    simp only [Except.map, hmap, hk, metaKeys_lower]
  · unfold TargetPixelFile.get_csv_row
    rw [h]
    rfl

/-- C5 witness: the fixed header line and matching data line on a concrete
successfully decoded file. -/
theorem c5_csv_header_fixed_witness :
    TargetPixelFile.get_csv_header tpfGood "u1" = .ok csvHeaderStr
    ∧ TargetPixelFile.get_csv_row tpfGood "u1"
        = .ok "u1,u1,1.0,EPIC 1,,,,,,,,,,,42,,,,,,,,,2,,,,,,,,,,,,,," :=
  ⟨(c5_csv_header_fixed tpfGood "u1"
      (exceptGet [] (TargetPixelFile.get_metadata tpfGood "u1")) rfl).1,
   (c5_csv_header_fixed tpfGood "u1"
      (exceptGet [] (TargetPixelFile.get_metadata tpfGood "u1")) rfl).2⟩

/-! Structural lemmas about get_metadata_row. -/

lemma gmr_eq (env : Env) (url0 : String) (hdr : Bool) :
    get_metadata_row env url0 hdr =
      (let url := strTrim url0
       let a := acquire env url
       match a.res with
       | .error _ =>
         { out := some [], fsAfter := a.fs, fetchCalls := a.fetchCalls,
           tmp_download := a.tmp_download, cleanupFailLogged := false,
           acquiredPath := none }
       | .ok path =>
         let lines := extractLines (tpfConstruct env path).1 url hdr
         if a.tmp_download then
           if env.unlinkFails path then
             { out := some lines, fsAfter := a.fs, fetchCalls := a.fetchCalls,
               tmp_download := true, cleanupFailLogged := true,
               acquiredPath := some path }
           else
             { out := some lines, fsAfter := fsRemove a.fs path,
               fetchCalls := a.fetchCalls, tmp_download := true,
               cleanupFailLogged := false, acquiredPath := some path }
         else
           { out := some lines, fsAfter := a.fs, fetchCalls := a.fetchCalls,
             tmp_download := false, cleanupFailLogged := false,
             acquiredPath := some path }) := by
  unfold get_metadata_row
  simp [IGNORE_SHORT_CADENCE]

lemma acquire_hit (env : Env) (u : String) (h : localMirrorPath u ∈ env.fs) :
    acquire env u =
      { res := .ok (localMirrorPath u), fs := env.fs, fetchCalls := 0,
        tmp_download := false } := by
  unfold acquire
  simp [h]

lemma acquire_tmp_true (env : Env) (u : String)
    (h : (acquire env u).tmp_download = true) :
    acquire env u =
      { res := .ok (scratchPath u), fs := fsAdd env.fs (scratchPath u),
        fetchCalls := 1, tmp_download := true } := by
  unfold acquire download_file at h ⊢
  by_cases hm : localMirrorPath u ∈ env.fs
  · simp [hm] at h
  · cases hn : env.net u <;> simp_all [hm, hn]

lemma extractLines_shape (t : Except String TpfData) (u : String) :
    (∃ h r, extractLines t u true = [CsvLine.headerLine h, CsvLine.dataLine r]
       ∧ extractLines t u false = [CsvLine.dataLine r])
    ∨ (extractLines t u true = [] ∧ extractLines t u false = []) := by
  cases t with
  | error e => right; exact ⟨rfl, rfl⟩
  | ok d =>
    cases hm : TargetPixelFile.get_metadata d u with
    | error e =>
      right
      constructor <;>
        simp [extractLines, TargetPixelFile.get_csv_header,
          TargetPixelFile.get_csv_row, hm, Except.map]
    | ok r =>
      left
      refine ⟨String.intercalate "," (r.map (fun p => strLower p.1)),
        String.intercalate "," (r.map Prod.snd), ?_, ?_⟩ <;>
        simp [extractLines, TargetPixelFile.get_csv_header,
          TargetPixelFile.get_csv_row, hm, Except.map]

lemma rowLines_eq (env : Env) (u : String) (hdr : Bool) :
    rowLines env u hdr =
      match (acquire env (strTrim u)).res with
      | .error _ => []
      | .ok path => extractLines (tpfConstruct env path).1 (strTrim u) hdr := by
  unfold rowLines
  rw [gmr_eq]
  cases hres : (acquire env (strTrim u)).res with
  | error e => simp [hres]
  | ok path =>
    by_cases ht : (acquire env (strTrim u)).tmp_download
    · by_cases hu : env.unlinkFails path <;> simp [hres, ht, hu]
    · simp [hres, ht]

lemma rowLines_shape (env : Env) (u : String) :
    (∃ h r, rowLines env u true = [CsvLine.headerLine h, CsvLine.dataLine r]
       ∧ rowLines env u false = [CsvLine.dataLine r])
    ∨ (rowLines env u true = [] ∧ rowLines env u false = []) := by
  rw [rowLines_eq env u true, rowLines_eq env u false]
  cases hres : (acquire env (strTrim u)).res with
  | error e => right; exact ⟨rfl, rfl⟩
  | ok path => exact extractLines_shape (tpfConstruct env path).1 (strTrim u)

lemma countData_rowLines (env : Env) (u : String) (hdr : Bool) :
    countData (rowLines env u hdr) = if rowSucceeds env u then 1 else 0 := by
  rcases rowLines_shape env u with ⟨h, r, h1, h2⟩ | ⟨h1, h2⟩
  · have hs : rowSucceeds env u = true := by simp [rowSucceeds, h2]
    cases hdr
    · simp [h2, hs, countData, isData, List.countP_cons]
    · simp [h1, hs, countData, isData, List.countP_cons]
  · have hs : rowSucceeds env u = false := by simp [rowSucceeds, h2]
    cases hdr
    · simp [h2, hs, countData]
    · simp [h1, hs, countData]

lemma rowLines_false_all_data (env : Env) (u : String) :
    ∀ l ∈ rowLines env u false, isData l = true := by
  rcases rowLines_shape env u with ⟨h, r, h1, h2⟩ | ⟨h1, h2⟩
  · rw [h2]
    intro l hl
    simp at hl
    subst hl
    rfl
  · rw [h2]
    intro l hl
    simp at hl

lemma countData_concatRows (env : Env) :
    ∀ us : List String, countData (concatRows env us) = us.countP (rowSucceeds env) := by
  intro us
  induction us with
  | nil => simp [concatRows, countData]
  | cons u us ih =>
    have happ : countData (rowLines env u false ++ concatRows env us)
        = countData (rowLines env u false) + countData (concatRows env us) :=
      List.countP_append _ _ _
    have hcons : concatRows env (u :: us) = rowLines env u false ++ concatRows env us := rfl
    rw [hcons, happ, countData_rowLines env u false, ih, List.countP_cons]
    cases hs : rowSucceeds env u <;> simp [hs, Nat.add_comm]

lemma concatRows_no_header (env : Env) :
    ∀ (us : List String) (l : CsvLine), l ∈ concatRows env us → isHeaderL l = false := by
  intro us
  induction us with
  | nil =>
    intro l hl
    simp [concatRows] at hl
  | cons u us ih =>
    intro l hl
    have hcons : concatRows env (u :: us) = rowLines env u false ++ concatRows env us := rfl
    rw [hcons] at hl
    rcases List.mem_append.mp hl with h1 | h2
    · have hd := rowLines_false_all_data env u l h1
      cases l with
      | headerLine s => simp [isData] at hd
      | dataLine s => rfl
    · exact ih l h2

/-! Claim C4: row count of the output table. -/

/-- World for the table witnesses: the mirror holds u1 (which decodes), the
network is down, so u2 fails. -/
def envTable : Env :=
  { fs := ["u1"], net := fun _ => .connectFail "down",
    fitsOpen := fun p _ => if p == "u1" then .ok tpfGood else .error "open failed",
    unlinkFails := fun _ => false }

/-- C4: for every input URL list and every completion order of the pool, the
number of data rows written equals the number of URLs that acquire and
decode successfully, hence is at most the number of URLs, with equality
exactly when every URL succeeds; a failing URL contributes no line at all
(no error rows). -/
theorem c4_row_count (env : Env) (urls order : List String)
    (hp : order.Perm urls.tail) :
    countData (write_metadata_table env urls order) = urls.countP (rowSucceeds env)
    ∧ countData (write_metadata_table env urls order) ≤ urls.length
    ∧ (countData (write_metadata_table env urls order) = urls.length ↔
        ∀ u ∈ urls, rowSucceeds env u = true)
    ∧ (∀ u, rowSucceeds env u = false → rowLines env u false = []) := by
  have hmain : countData (write_metadata_table env urls order)
      = urls.countP (rowSucceeds env) := by
    cases urls with
    | nil =>
      have hlen := hp.length_eq
      simp at hlen
      subst hlen
      simp [write_metadata_table, countData, concatRows]
    | cons u0 rest =>
      have htail : order.countP (rowSucceeds env) = rest.countP (rowSucceeds env) :=
        hp.countP_eq (rowSucceeds env)
      have hw : write_metadata_table env (u0 :: rest) order
          = rowLines env u0 true ++ concatRows env order := rfl
      have happ : countData (rowLines env u0 true ++ concatRows env order)
          = countData (rowLines env u0 true) + countData (concatRows env order) :=
        List.countP_append _ _ _
      rw [hw, happ, countData_rowLines env u0 true, countData_concatRows env order,
        htail, List.countP_cons]
      cases hs : rowSucceeds env u0 <;> simp [hs, Nat.add_comm]
  refine ⟨hmain, ?_, ?_, ?_⟩
  · rw [hmain]
    exact List.countP_le_length _
  · rw [hmain]
    exact List.countP_eq_length
  · intro u hs
    rcases rowLines_shape env u with ⟨h, r, h1, h2⟩ | ⟨h1, h2⟩
    · rw [rowSucceeds, h2] at hs
      simp at hs
    · exact h2

/-- C4 witness: two URLs, u1 succeeds from the mirror, u2 fails to download;
the output holds exactly one data row. -/
theorem c4_row_count_witness :
    countData (write_metadata_table envTable ["u1", "u2"] ["u2"]) = 1 := by
  have h := (c4_row_count envTable ["u1", "u2"] ["u2"] (List.Perm.refl _)).1
  rw [h]
  decide

/-! Claim C9: headerless output when the first URL fails. -/

/-- C9: when the first URL's processing fails, the run still completes, no
header line is ever written (the table contains no header line), and the
data rows of the remaining URLs are still present — the resulting CSV is
headerless. -/
theorem c9_headerless_when_first_fails (env : Env) (u0 : String)
    (rest order : List String) (hp : order.Perm rest)
    (hfail : rowSucceeds env u0 = false) :
    (∀ l ∈ write_metadata_table env (u0 :: rest) order, isHeaderL l = false)
    ∧ countData (write_metadata_table env (u0 :: rest) order)
        = rest.countP (rowSucceeds env) := by
  have h0 : rowLines env u0 true = [] := by
    rcases rowLines_shape env u0 with ⟨h, r, h1, h2⟩ | ⟨h1, h2⟩
    · rw [rowSucceeds, h2] at hfail
      simp at hfail
    · exact h1
  have hw : write_metadata_table env (u0 :: rest) order
      = rowLines env u0 true ++ concatRows env order := rfl
  constructor
  · intro l hl
    rw [hw, h0, List.nil_append] at hl
    exact concatRows_no_header env order l hl
  · rw [hw, h0, List.nil_append, countData_concatRows env order,
      hp.countP_eq (rowSucceeds env)]

/-- C9 witness: first URL u2 fails, second URL u1 succeeds: the table has no
header line and exactly one data row. -/
theorem c9_headerless_witness :
    (∀ l ∈ write_metadata_table envTable ["u2", "u1"] ["u1"], isHeaderL l = false)
    ∧ countData (write_metadata_table envTable ["u2", "u1"] ["u1"]) = 1 := by
  have h := c9_headerless_when_first_fails envTable "u2" ["u1"] ["u1"]
    (List.Perm.refl _) (by decide)
  refine ⟨h.1, ?_⟩
  rw [h.2]
  decide

/-! Claim C6: local-mirror hit. -/

/-- C6: when the mapped local-mirror path of the (stripped) URL exists, the
worker hands exactly that path to TargetPixelFile, performs no urlopen call,
does not mark the acquisition temporary, and leaves the filesystem
unchanged. -/
theorem c6_mirror_hit (env : Env) (url0 : String) (hdr : Bool)
    (h : localMirrorPath (strTrim url0) ∈ env.fs) :
    (get_metadata_row env url0 hdr).acquiredPath
      = some (localMirrorPath (strTrim url0))
    ∧ (get_metadata_row env url0 hdr).fetchCalls = 0
    ∧ (get_metadata_row env url0 hdr).tmp_download = false
    ∧ (get_metadata_row env url0 hdr).fsAfter = env.fs := by
  have ha := acquire_hit env (strTrim url0) h
  rw [gmr_eq]
  simp [ha]

/-- C6 witness: a URL whose mirror path exists is processed with zero
urlopen calls, no temp flag, an unchanged filesystem, and the mirror path
itself handed to the reader. -/
theorem c6_mirror_hit_witness :
    (get_metadata_row envTable "u1" false).acquiredPath = some "u1"
    ∧ (get_metadata_row envTable "u1" false).fetchCalls = 0
    ∧ (get_metadata_row envTable "u1" false).tmp_download = false := by
  have h := c6_mirror_hit envTable "u1" false (by decide)
  exact ⟨h.1, h.2.1, h.2.2.1⟩

/-! Claim C1: scratch-file cleanup. -/

/-- World for the C1 counterexample: no mirror, the download creates the
local file and then fails mid-read. -/
def envC1 : Env :=
  { fs := [], net := fun _ => .readFail,
    fitsOpen := fun _ _ => .error "open failed", unlinkFails := fun _ => false }

/-- World for the C1 witness: the download succeeds, then fits.open fails. -/
def envC1ok : Env :=
  { fs := [], net := fun _ => .ok,
    fitsOpen := fun _ _ => .error "open failed", unlinkFails := fun _ => false }

/-- URL used by the C1 counterexample and witness. -/
def urlC1 : String :=
  "http://archive.stsci.edu/missions/k2/target_pixel_files/c0/ktwo200000001-c00_lpd-targ.fits.gz"

/-- C1 counterexample: the download creates the scratch file and then fails
mid-read; tmp_download was never set, so the finally block does not delete
the partial scratch file: it is present after the worker returns — refuting
the claim that a scratch file created during processing is deleted on every
exit path including a failure raised during download. -/
theorem c1_counterexample :
    scratchPath (strTrim urlC1) ∉ envC1.fs
    ∧ scratchPath (strTrim urlC1) ∈ (get_metadata_row envC1 urlC1 false).fsAfter
    ∧ (get_metadata_row envC1 urlC1 false).out = some [] := by
  refine ⟨by decide, by decide, by decide⟩

/-- C1 (amended): once the download completed and the result was marked
temporary (tmp_download), the scratch file is deleted before the worker
returns on every exit path — opening failure, extraction failure or success;
when the deletion itself fails the failure is logged and the file remains;
and the returned value is unchanged by the deletion outcome.  A scratch file
partially written by a download that failed mid-transfer is not covered:
tmp_download is still unset and the file survives (see the counterexample). -/
theorem c1_cleanup_when_temp (env : Env) (url0 : String) (hdr : Bool)
    (htmp : (get_metadata_row env url0 hdr).tmp_download = true) :
    (env.unlinkFails (scratchPath (strTrim url0)) = false →
      scratchPath (strTrim url0) ∉ (get_metadata_row env url0 hdr).fsAfter)
    ∧ (env.unlinkFails (scratchPath (strTrim url0)) = true →
      (get_metadata_row env url0 hdr).cleanupFailLogged = true)
    ∧ (∀ g : String → Bool,
        (get_metadata_row { env with unlinkFails := g } url0 hdr).out
          = (get_metadata_row env url0 hdr).out) := by
  have htmp2 : (acquire env (strTrim url0)).tmp_download = true := by
    rw [gmr_eq] at htmp
    rcases hres : (acquire env (strTrim url0)).res with e | path
    · simp [hres] at htmp
      rw [← htmp]
    · by_cases ht : (acquire env (strTrim url0)).tmp_download
      · exact ht
      · simp [hres, ht] at htmp
  have ha := acquire_tmp_true env (strTrim url0) htmp2
  refine ⟨?_, ?_, ?_⟩
  · intro hunl
    rw [gmr_eq]
    simp [ha, hunl, fsRemove_not_mem]
  · intro hunl
    rw [gmr_eq]
    simp [ha, hunl]
  · intro g
    have ha2 : acquire { env with unlinkFails := g } (strTrim url0)
        = acquire env (strTrim url0) := rfl
    have hc : tpfConstruct { env with unlinkFails := g } (scratchPath (strTrim url0))
        = tpfConstruct env (scratchPath (strTrim url0)) := rfl
    rw [gmr_eq, gmr_eq]
    simp only [ha2, ha, hc]
    by_cases hg : g (scratchPath (strTrim url0)) <;>
      by_cases he : env.unlinkFails (scratchPath (strTrim url0)) <;>
        simp [hg, he]

/-- C1 witness: a completed download whose file then fails to open: the
scratch file is gone after the worker returns, and replacing the unlink
behaviour does not change the returned value. -/
theorem c1_cleanup_when_temp_witness :
    scratchPath (strTrim urlC1) ∉ (get_metadata_row envC1ok urlC1 false).fsAfter := by
  have h := c1_cleanup_when_temp envC1ok urlC1 false (by decide)
  exact h.1 (by decide)

/-! Claim C10: the aggregation step's I/O discipline. -/

lemma aggRest_mem (env : Env) (o : String) :
    ∀ (us : List String) (e : AggEvent), e ∈ aggRest env o us →
      (∃ s, e = AggEvent.writeChunk o s) ∨ e = AggEvent.flushOut o := by
  intro us
  induction us with
  | nil =>
    intro e he
    simp [aggRest] at he
  | cons u us ih =>
    intro e he
    have hcons : aggRest env o (u :: us) =
        (match (get_metadata_row env u false).out with
         | none => []
         | some ls => [AggEvent.writeChunk o (renderLines ls),
                       AggEvent.flushOut o]) ++ aggRest env o us := rfl
    rw [hcons] at he
    rcases List.mem_append.mp he with h1 | h2
    · cases hout : (get_metadata_row env u false).out with
      | none =>
        rw [hout] at h1
        simp at h1
      | some ls =>
        rw [hout] at h1
        simp at h1
        rcases h1 with h | h
        · exact Or.inl ⟨_, h⟩
        · exact Or.inr h
    · exact ih e h2

/-- C10: the aggregation step's own I/O trace starts with opening the output
path in (truncating) write mode — before any read of the input file; every
file-modifying event it performs targets the named output path and no other
file; and no open-for-append ever occurs, so a pre-existing output file is
replaced, never appended to. -/
theorem c10_output_discipline (env : Env) (input_fn output_fn : String)
    (inputContent : Option (List String)) (order : List String) :
    (aggTrace env input_fn output_fn inputContent order).head?
      = some (AggEvent.openWrite output_fn)
    ∧ (∀ e ∈ aggTrace env input_fn output_fn inputContent order,
        isWriteEvent e = true → eventPath e = output_fn)
    ∧ (∀ p : String,
        AggEvent.openAppend p ∉ aggTrace env input_fn output_fn inputContent order) := by
  refine ⟨rfl, ?_, ?_⟩
  · intro e he hw
    cases inputContent with
    | none =>
      simp [aggTrace] at he
      rcases he with rfl | rfl
      · rfl
      · simp [isWriteEvent] at hw
    | some urls =>
      cases urls with
      | nil =>
        simp [aggTrace] at he
        rcases he with rfl | rfl | rfl
        · rfl
        · simp [isWriteEvent] at hw
        · simp [isWriteEvent] at hw
      | cons u0 rest =>
        simp [aggTrace] at he
        rcases he with rfl | rfl | rfl | rfl | hmem
        · rfl
        · simp [isWriteEvent] at hw
        · simp [isWriteEvent] at hw
        · rfl
        · rcases aggRest_mem env output_fn order e hmem with ⟨s, rfl⟩ | rfl
          · rfl
          · rfl
  · intro p hmem
    cases inputContent with
    | none =>
      simp [aggTrace] at hmem
    | some urls =>
      cases urls with
      | nil =>
        simp [aggTrace] at hmem
      | cons u0 rest =>
        simp [aggTrace] at hmem
        rcases aggRest_mem env output_fn order _ hmem with ⟨s, h⟩ | h <;> simp at h

/-- C10 witness: on a concrete run the first event is the truncating open of
the output file, and a write event in the trace targets the output path. -/
theorem c10_output_discipline_witness :
    eventPath (AggEvent.openWrite "out.csv") = "out.csv" :=
  (c10_output_discipline envTable "in.txt" "out.csv" (some ["u1", "u2"]) ["u2"]).2.1
    (AggEvent.openWrite "out.csv") (by decide) (by decide)

/-- C7 witness: the amended characterisation evaluated on the concrete
"all" campaign range with campaign 0's input missing. -/
theorem c7_abort_at_first_missing_witness :
    (mainLoop readFilesC7 (List.range 6)).1
        = (List.range 6).takeWhile (fun c => (readFilesC7 (inputFn c)).isSome)
    ∧ (mainLoop readFilesC7 (List.range 6)).2
        = (List.range 6).find? (fun c => (readFilesC7 (inputFn c)).isNone) :=
  c7_abort_at_first_missing readFilesC7 (List.range 6)

/-- C8 witness: the collision criterion evaluated at two concrete URLs with
different basenames: their scratch paths differ. -/
theorem c8_collision_iff_same_basename_witness :
    (scratchPath "http://a/x.fits" = scratchPath "http://b/y.fits"
      ↔ basename "http://a/x.fits" = basename "http://b/y.fits") :=
  c8_collision_iff_same_basename "http://a/x.fits" "http://b/y.fits"

end K2Meta
